import Mathlib

/-!
Verification development for the ccf-ui boot-time authentication interceptor
(`src/boot/auth-header.ts` and the unnamed variant of the same boot patch).

The TypeScript source is shallowly embedded: browser platform primitives that
the source calls (`localStorage`, `new URL`, `Headers`, `JSON.parse`,
`XMLHttpRequest.setRequestHeader`) are modelled as executable Lean functions
over plain data, and each interceptor function is translated statement by
statement on top of them.  Exceptions (`try`/`catch`) are modelled with
`Option`: a `none` produced by a fallible platform operation takes the
`catch` branch of the enclosing handler.
-/

namespace CcfAuth

/-! ### JSON values

Model of the JavaScript values that `JSON.parse` / an XHR `response` object
can produce.  Numbers are modelled as integers (no claim depends on
fractional numbers). -/

inductive JVal where
  | null : JVal
  | bool : Bool → JVal
  | num : Int → JVal
  | str : String → JVal
  | arr : List JVal → JVal
  | obj : List (String × JVal) → JVal

/-- Property access `v[k]` on a JavaScript value: returns the field of an
object, and `none` (JS `undefined`) for a missing field or a non-object.
Optional chaining `a?.b` maps to propagating `none`. -/
def jField (v : JVal) (k : String) : Option JVal :=
  match v with
  | JVal.obj fs =>
    match fs.find? (fun f => f.1 = k) with
    | some f => some f.2
    | none => none
  | _ => none

/-- The expression `body?.data?.auth_token` (equivalently the guarded chain
`body && body.data && body.data.auth_token` followed by the `typeof` test):
the nested field, `none` standing for JS `undefined`/short-circuit. -/
def authTokenField (body : JVal) : Option JVal :=
  match jField body "data" with
  | some d => jField d "auth_token"
  | none => none

/-- JavaScript truthiness of a value. -/
def jsTruthy (v : JVal) : Bool :=
  match v with
  | JVal.null => false
  | JVal.bool b => b
  | JVal.num n => n != 0
  | JVal.str s => s != ""
  | JVal.arr _ => true
  | JVal.obj _ => true

/-- Whether `typeof v` is the string "object" (true for objects, arrays and
null). -/
def jsIsObjType (v : JVal) : Bool :=
  match v with
  | JVal.obj _ => true
  | JVal.arr _ => true
  | JVal.null => true
  | _ => false

/-! ### JSON.parse

Fuel-based recursive-descent model of the platform `JSON.parse`, covering
objects, arrays, strings with the common escapes, integers, booleans and
null.  `none` models the `SyntaxError` exception. -/

def quoteC : Char := Char.ofNat 34

def bslashC : Char := Char.ofNat 92

def lbraceC : Char := Char.ofNat 123

def rbraceC : Char := Char.ofNat 125

def isWsC (c : Char) : Bool :=
  c == ' ' || c == Char.ofNat 10 || c == Char.ofNat 9 || c == Char.ofNat 13

def skipWs : List Char → List Char
  | [] => []
  | c :: cs => if isWsC c then skipWs cs else c :: cs

def escChar (c : Char) : Option Char :=
  if c == quoteC then some quoteC
  else if c == bslashC then some bslashC
  else if c == '/' then some '/'
  else if c == 'n' then some (Char.ofNat 10)
  else if c == 't' then some (Char.ofNat 9)
  else if c == 'r' then some (Char.ofNat 13)
  else none

def parseStrChars : Nat → List Char → Option (List Char × List Char)
  | 0, _ => none
  | fuel + 1, cs =>
    match cs with
    | [] => none
    | c :: rest =>
      if c == quoteC then some ([], rest)
      else if c == bslashC then
        match rest with
        | [] => none
        | e :: rest1 =>
          match escChar e with
          | none => none
          | some d =>
            match parseStrChars fuel rest1 with
            | some p => some (d :: p.1, p.2)
            | none => none
      else
        match parseStrChars fuel rest with
        | some p => some (c :: p.1, p.2)
        | none => none

def isDigitC (c : Char) : Bool := Nat.ble 48 c.toNat && Nat.ble c.toNat 57

def digitsToNat (ds : List Char) : Nat :=
  ds.foldl (fun n c => n * 10 + (c.toNat - 48)) 0

def parseDigits (cs : List Char) : Option (Nat × List Char) :=
  let ds := cs.takeWhile isDigitC
  if ds = [] then none else some (digitsToNat ds, cs.drop ds.length)

mutual

def parseVal : Nat → List Char → Option (JVal × List Char)
  | 0, _ => none
  | fuel + 1, cs =>
    match skipWs cs with
    | [] => none
    | c :: rest =>
      if c == quoteC then
        match parseStrChars (fuel + 1) rest with
        | some p => some (JVal.str (String.mk p.1), p.2)
        | none => none
      else if c == lbraceC then
        match skipWs rest with
        | d :: rest1 =>
          if d == rbraceC then some (JVal.obj [], rest1)
          else
            match parseMembers fuel (skipWs rest) with
            | some p => some (JVal.obj p.1, p.2)
            | none => none
        | [] => none
      else if c == '[' then
        match skipWs rest with
        | d :: rest1 =>
          if d == ']' then some (JVal.arr [], rest1)
          else
            match parseItems fuel (skipWs rest) with
            | some p => some (JVal.arr p.1, p.2)
            | none => none
        | [] => none
      else if c == 't' then
        if rest.take 3 = ['r', 'u', 'e'] then some (JVal.bool true, rest.drop 3) else none
      else if c == 'f' then
        if rest.take 4 = ['a', 'l', 's', 'e'] then some (JVal.bool false, rest.drop 4) else none
      else if c == 'n' then
        if rest.take 3 = ['u', 'l', 'l'] then some (JVal.null, rest.drop 3) else none
      else if c == '-' then
        match parseDigits rest with
        | some p => some (JVal.num (-(Int.ofNat p.1)), p.2)
        | none => none
      else if isDigitC c then
        match parseDigits (c :: rest) with
        | some p => some (JVal.num (Int.ofNat p.1), p.2)
        | none => none
      else none

def parseMembers : Nat → List Char → Option (List (String × JVal) × List Char)
  | 0, _ => none
  | fuel + 1, cs =>
    match skipWs cs with
    | [] => none
    | c :: rest =>
      if c == quoteC then
        match parseStrChars (fuel + 1) rest with
        | some kp =>
          match skipWs kp.2 with
          | d :: r2 =>
            if d == ':' then
              match parseVal fuel r2 with
              | some vp =>
                match skipWs vp.2 with
                | e :: r4 =>
                  if e == ',' then
                    match parseMembers fuel r4 with
                    | some p => some ((String.mk kp.1, vp.1) :: p.1, p.2)
                    | none => none
                  else if e == rbraceC then some ([(String.mk kp.1, vp.1)], r4)
                  else none
                | [] => none
              | none => none
            else none
          | [] => none
        | none => none
      else none

def parseItems : Nat → List Char → Option (List JVal × List Char)
  | 0, _ => none
  | fuel + 1, cs =>
    match parseVal fuel cs with
    | some vp =>
      match skipWs vp.2 with
      | e :: r2 =>
        if e == ',' then
          match parseItems fuel r2 with
          | some p => some (vp.1 :: p.1, p.2)
          | none => none
        else if e == ']' then some ([vp.1], r2)
        else none
      | [] => none
    | none => none

end

/-- Model of the platform `JSON.parse`; `none` models a thrown `SyntaxError`
(including the empty string, which `JSON.parse` rejects). -/
def jsonParse (s : String) : Option JVal :=
  match parseVal (s.data.length + 1) s.data with
  | some p => if skipWs p.2 = [] then some p.1 else none
  | none => none

/-! ### URL resolution

Model of `new URL(url, window.location.origin).pathname` for a valid page
origin (an origin always has path `/`).  The modelled fragment covers
absolute `http`/`https` URLs, protocol-relative references, root-relative
paths and plain relative paths, with query/fragment stripping; `none` models
the `TypeError` the constructor throws (empty authority).  Dot-segment
normalization and exotic schemes are outside the modelled fragment. -/

def takePathL (cs : List Char) : List Char :=
  cs.takeWhile (fun c => !(c == '?' || c == '#'))

def authStopC (c : Char) : Bool := c == '/' || c == '?' || c == '#'

def hostPart (cs : List Char) : List Char :=
  cs.takeWhile (fun c => !(authStopC c))

def afterHost (cs : List Char) : List Char :=
  cs.dropWhile (fun c => !(authStopC c))

def pathFromRest (rest : List Char) : List Char :=
  match rest with
  | c :: _ => if c == '/' then takePathL rest else ['/']
  | [] => ['/']

def hostPath (rest : List Char) : Option (List Char) :=
  if hostPart rest = [] then none else some (pathFromRest (afterHost rest))

def pathOfL (cs : List Char) : Option (List Char) :=
  if "http://".data.isPrefixOf cs then hostPath (cs.drop 7)
  else if "https://".data.isPrefixOf cs then hostPath (cs.drop 8)
  else if "//".data.isPrefixOf cs then hostPath (cs.drop 2)
  else
    match cs with
    | c :: _ => if c == '/' then some (takePathL cs) else some ('/' :: takePathL cs)
    | [] => some ['/']

/-- Pathname of `url` resolved against the page origin, or `none` when the
URL constructor throws. -/
def pathOf (url : String) : Option String :=
  (pathOfL url.data).map String.mk

/-- Pathname of an absolute URL, model of `new URL(url)` with no base as used
on `XMLHttpRequest.responseURL`; relative input throws (`none`). -/
def pathOfAbs (url : String) : Option String :=
  if "http://".data.isPrefixOf url.data then (hostPath (url.data.drop 7)).map String.mk
  else if "https://".data.isPrefixOf url.data then (hostPath (url.data.drop 8)).map String.mk
  else none

def strStartsWith (s t : String) : Bool := t.data.isPrefixOf s.data

/-- The trailing-match regular expression test `/suffix$/.test(s)` used by the
interceptors, as a suffix check on the character list. -/
def strEndsWith (s t : String) : Bool :=
  Nat.ble t.data.length s.data.length &&
    (s.data.drop (s.data.length - t.data.length) == t.data)

/-- URL classifier `isApi` from the source: resolve against the page origin,
test the pathname for the literal prefix; a resolution failure is caught and
yields `false`. -/
def isApi (url : String) : Bool :=
  match pathOf url with
  | some p => strStartsWith p "/api/"
  | none => false

/-! ### Token Store

`localStorage` holds at most the one key `ccf_auth_token`; the store state is
that cell plus an availability flag (`avail = false` models storage whose
operations throw, which every store function catches). -/

structure Store where
  avail : Bool
  cell : Option String
  deriving DecidableEq

/-- Reads the persisted token; `null` and a storage exception both degrade to
the empty string. -/
def getToken (σ : Store) : String :=
  if σ.avail then
    match σ.cell with
    | some s => s
    | none => ""
  else ""

/-- Writes the token only for a truthy (present, non-empty) input, and only
when storage is usable; otherwise a silent no-op. -/
def setToken (t : Option String) (σ : Store) : Store :=
  match t with
  | some s => if s ≠ "" ∧ σ.avail = true then ⟨true, some s⟩ else σ
  | none => σ

/-- Removes the persisted token; a storage exception is a silent no-op. -/
def clearToken (σ : Store) : Store :=
  if σ.avail then ⟨true, none⟩ else σ

/-! ### Header collections

A `Headers` object / XHR request-header list, as an association list with
case-insensitive names (only ASCII case matters for the names these programs
use).  The platform keeps at most one entry per name, which the operations
below preserve, so replacement touches the single matching entry. -/

def lowerChar (c : Char) : Char :=
  if 65 ≤ c.toNat ∧ c.toNat ≤ 90 then Char.ofNat (c.toNat + 32) else c

/-- Case-insensitive header-name equality. -/
def hKeyEq (a b : String) : Bool := a.data.map lowerChar == b.data.map lowerChar

abbrev HeaderMap := List (String × String)

/-- Headers.get, first (unique) entry with a matching name. -/
def hget : HeaderMap → String → Option String
  | [], _ => none
  | e :: t, k => if hKeyEq e.1 k then some e.2 else hget t k

/-- Headers.has. -/
def hhas (h : HeaderMap) (k : String) : Bool := (hget h k).isSome

/-- Headers.set: replace the matching entry, else append. -/
def hset : HeaderMap → String → String → HeaderMap
  | [], k, v => [(k, v)]
  | e :: t, k, v => if hKeyEq e.1 k then (e.1, v) :: t else e :: hset t k v

/-- Headers.append and `XMLHttpRequest.setRequestHeader`: combine with the
value of the matching entry (comma-joined), else append. -/
def hcombine : HeaderMap → String → String → HeaderMap
  | [], k, v => [(k, v)]
  | e :: t, k, v => if hKeyEq e.1 k then (e.1, e.2 ++ ", " ++ v) :: t else e :: hcombine t k v

/-- Construction `new Headers(list)` from an init list: entries are added in
order with append (combine) semantics. -/
def ofHeaderList (l : List (String × String)) : HeaderMap :=
  l.foldl (fun h kv => hcombine h kv.1 kv.2) []

/-- The overlay loop `new Headers(init.headers).forEach((v, k) => merged.set(k, v))`. -/
def overlayInit (base : HeaderMap) (l : List (String × String)) : HeaderMap :=
  (ofHeaderList l).foldl (fun h kv => hset h kv.1 kv.2) base

def bearer (t : String) : String := "Bearer " ++ t

/-! ### Fetch call shapes

The `fetch` target is a string, a `URL` object, or a `Request` object; the
init dictionary carries an optional headers list plus its remaining members
(method, body, ...), which the wrappers only spread through unchanged. -/

structure Request where
  url : String
  headers : HeaderMap
  deriving DecidableEq

inductive FetchInput where
  | str : String → FetchInput
  | url : String → FetchInput
  | req : Request → FetchInput
  deriving DecidableEq

structure RequestInit where
  headers : Option (List (String × String))
  rest : List (String × String)
  deriving DecidableEq

def initHeaders (init : Option RequestInit) : Option (List (String × String)) :=
  match init with
  | some i => i.headers
  | none => none

def restOf (init : Option RequestInit) : List (String × String) :=
  match init with
  | some i => i.rest
  | none => []

/-- Target URL of a fetch input: the string itself, `URL.toString()`, or
`Request.url`.  This is both the normalization at the top of the
auth-header.ts wrapper and the URL the underlying transport targets. -/
def targetUrl (input : FetchInput) : String :=
  match input with
  | FetchInput.str s => s
  | FetchInput.url u => u
  | FetchInput.req r => r.url

/-- Normalization in the part_000 wrapper, `typeof input === 'string' ?
input : (input as Request).url`: a `URL` object has no `url` property, so the
expression is JS `undefined` there, which the later `new URL`/`isApi` uses
coerce to the string "undefined". -/
def targetUrlB (input : FetchInput) : String :=
  match input with
  | FetchInput.str s => s
  | FetchInput.url _ => "undefined"
  | FetchInput.req r => r.url

/-- The request as seen by the underlying transport. -/
structure Issued where
  url : String
  headers : HeaderMap
  rest : List (String × String)
  deriving DecidableEq

/-- Headers the underlying `fetch(input, init)` sends when the wrapper does
not rewrite them: an init headers member replaces any `Request` headers;
without it the own headers of a `Request` input apply. -/
def effHeaders (input : FetchInput) (ih : Option (List (String × String))) : HeaderMap :=
  match ih with
  | some l => ofHeaderList l
  | none =>
    match input with
    | FetchInput.req r => r.headers
    | _ => []

structure Response where
  status : Nat
  bodyText : String
  deriving DecidableEq

/-- The `Response.ok` getter: status in the range [200,300). -/
def rOk (r : Response) : Bool := Nat.ble 200 r.status && Nat.blt r.status 300

/-- Result of `res.clone().json()`: parse of the body text, `none` for a
rejection. -/
def resJson (r : Response) : Option JVal := jsonParse r.bodyText

/-! ### The auth-header.ts fetch wrapper -/

/-- Merge state before the Authorization injection step: headers carried on a
`Request` input, then each entry of `init.headers` overlaid with `set`. -/
def preMergedA (input : FetchInput) (init : Option RequestInit) : HeaderMap :=
  let m0 : HeaderMap :=
    match input with
    | FetchInput.req r => r.headers
    | _ => []
  match initHeaders init with
  | some l => overlayInit m0 l
  | none => m0

/-- Full merged headers: inject `Bearer` from the store only when no
Authorization entry survived the merge and the store holds a token. -/
def mergedHeadersA (σ : Store) (input : FetchInput) (init : Option RequestInit) : HeaderMap :=
  let m1 := preMergedA input init
  if hhas m1 "Authorization" = false then
    let t := getToken σ
    if t ≠ "" then hset m1 "Authorization" (bearer t) else m1
  else m1

/-- The request auth-header.ts hands to the original fetch: untouched for an
out-of-scope target, rebuilt with the merged headers for an in-scope one. -/
def issuedA (σ : Store) (input : FetchInput) (init : Option RequestInit) : Issued :=
  if isApi (targetUrl input) then
    ⟨targetUrl input, mergedHeadersA σ input init, restOf init⟩
  else
    ⟨targetUrl input, effHeaders input (initHeaders init), restOf init⟩

/-- The login-capture block of the auth-header.ts fetch wrapper (the
`try`/`catch` after the delegated call): on a success response whose request
path ends in `/api/auth/login`, read `data.auth_token` from the cloned JSON
body and store it when it is a non-empty string.  Exceptions anywhere inside
are swallowed. -/
def captureA (σ : Store) (url : String) (r : Response) : Store :=
  match pathOf url with
  | none => σ
  | some p =>
    if strEndsWith p "/api/auth/login" && rOk r then
      let body := (resJson r).getD JVal.null
      match authTokenField body with
      | some (JVal.str s) => if 0 < s.length then setToken (some s) σ else σ
      | _ => σ
    else σ

/-- The patched `window.fetch` of auth-header.ts.  The transport argument
stands for the saved original fetch; a `Except.error` result is a rejected
promise, which `await` re-raises past the wrapper.  Returns the result of
the wrapper together with the store as updated by the response inspection. -/
def fetchWrapperA (σ : Store) (tr : Issued → Except Unit Response)
    (input : FetchInput) (init : Option RequestInit) : Except Unit Response × Store :=
  let url := targetUrl input
  if isApi url then
    match tr (issuedA σ input init) with
    | Except.error e => (Except.error e, σ)
    | Except.ok res => (Except.ok res, captureA σ url res)
  else
    (tr (issuedA σ input init), σ)

/-! ### The part_000 fetch wrapper -/

/-- Headers the part_000 wrapper hands to the original fetch.  In the
in-scope branch it builds `cfg.headers` from `init.headers` alone (a
own headers of a `Request` input are not consulted, and since `cfg.headers` is
always present they are replaced); out of scope it passes `init` through. -/
def issuedBHeaders (σ : Store) (input : FetchInput) (init : Option RequestInit) : HeaderMap :=
  if isApi (targetUrlB input) then
    let h0 := ofHeaderList ((initHeaders init).getD [])
    if hhas h0 "Authorization" = false then
      let t := getToken σ
      if t ≠ "" then hset h0 "Authorization" (bearer t) else h0
    else h0
  else effHeaders input (initHeaders init)

def issuedB (σ : Store) (input : FetchInput) (init : Option RequestInit) : Issued :=
  ⟨targetUrl input, issuedBHeaders σ input init, restOf init⟩

/-- The login-capture block of the part_000 wrapper: same guards, with the
in-scope test repeated explicitly. -/
def captureB (σ : Store) (url : String) (r : Response) : Store :=
  if isApi url then
    match pathOf url with
    | none => σ
    | some p =>
      if strEndsWith p "/api/auth/login" && rOk r then
        let body := (resJson r).getD JVal.null
        match authTokenField body with
        | some (JVal.str s) => if 0 < s.length then setToken (some s) σ else σ
        | _ => σ
      else σ
  else σ

/-- The patched `window.fetch` of part_000. -/
def fetchWrapperB (σ : Store) (tr : Issued → Except Unit Response)
    (input : FetchInput) (init : Option RequestInit) : Except Unit Response × Store :=
  match tr (issuedB σ input init) with
  | Except.error e => (Except.error e, σ)
  | Except.ok res => (Except.ok res, captureB σ (targetUrlB input) res)

/-! ### The XHR interceptor (auth-header.ts)

An `XMLHttpRequest` instance carries the boolean recorded at open time
(`__ccf_is_api`) and its request-header list (reset by `open`, appended to by
`setRequestHeader`). -/

structure XHR where
  isApiFlag : Bool
  reqHeaders : HeaderMap
  deriving DecidableEq

/-- The wrapped `open`: record the classifier verdict on the instance and
delegate; the underlying open starts a fresh header list. -/
def xhrOpen (url : String) : XHR :=
  ⟨isApi url, []⟩

/-- Platform `setRequestHeader` called on the instance (by the caller between
open and send, or by the interceptor): combine semantics. -/
def setRequestHeader (x : XHR) (k v : String) : XHR :=
  ⟨x.isApiFlag, hcombine x.reqHeaders k v⟩

/-- The header-injection step of the wrapped `send`: when the open-time
verdict is set and the store holds a token, attach the bearer header (any
exception from the platform call is swallowed). -/
def xhrSendInject (σ : Store) (x : XHR) : XHR :=
  if x.isApiFlag then
    let t := getToken σ
    if t ≠ "" then setRequestHeader x "Authorization" (bearer t) else x
  else x

/-- The wrapped `send`: inject, then delegate to the original send with the
body argument unchanged; the pair is the delegated call (instance state the
transport sees, body it sends). -/
def xhrSend (σ : Store) (x : XHR) (body : Option String) : XHR × Option String :=
  (xhrSendInject σ x, body)

/-- What the completion (`load`) event exposes: final status, resolved
response URL, the already-parsed `response` value when the client configured
a JSON response type, and the raw `responseText`. -/
structure XHRResponse where
  status : Nat
  responseURL : String
  response : Option JVal
  responseText : String

/-- The body-parsing chain of the load listener: prefer a truthy
object-typed `response`, else parse non-empty `responseText`, with every
failure collapsing to `null`. -/
def xhrBodyJson (r : XHRResponse) : JVal :=
  match r.response with
  | some v =>
    if jsTruthy v && jsIsObjType v then v
    else if r.responseText ≠ "" then (jsonParse r.responseText).getD JVal.null else JVal.null
  | none =>
    if r.responseText ≠ "" then (jsonParse r.responseText).getD JVal.null else JVal.null

/-- The one-time load listener registered by the wrapped `send`: bail out for
out-of-scope calls, derive the final path from `responseURL` (a throwing
parse aborts everything, caught), then run the three guards in order: login
capture, logout clear, 401 clear. -/
def xhrLoadListener (σ : Store) (flag : Bool) (r : XHRResponse) : Store :=
  if flag then
    match pathOfAbs r.responseURL with
    | none => σ
    | some path =>
      let σ1 :=
        if strEndsWith path "/api/auth/login" && (Nat.ble 200 r.status && Nat.blt r.status 300) then
          match authTokenField (xhrBodyJson r) with
          | some (JVal.str s) => if 0 < s.length then setToken (some s) σ else σ
          | _ => σ
        else σ
      let σ2 :=
        if strEndsWith path "/api/auth/logout" && (Nat.ble 200 r.status && Nat.blt r.status 300) then
          clearToken σ1
        else σ1
      if r.status = 401 then clearToken σ2 else σ2
  else σ

/-! ### Sequences of Token Store operations (for the round-trip property) -/

inductive TokenOp where
  | set : Option String → TokenOp
  | clear : TokenOp

/-- Truthiness of the optional `setToken` argument (`if (t)` in the source). -/
def truthyArg (t : Option String) : Bool :=
  match t with
  | some s => s != ""
  | none => false

def applyOp (σ : Store) (op : TokenOp) : Store :=
  match op with
  | TokenOp.set t => setToken t σ
  | TokenOp.clear => clearToken σ

def applyOps (σ : Store) (ops : List TokenOp) : Store := ops.foldl applyOp σ

/-- Operations that are neither a clear nor a successful (truthy) set. -/
def neutralOp (op : TokenOp) : Bool :=
  match op with
  | TokenOp.set t => !truthyArg t
  | TokenOp.clear => false

/-! ### Concrete fixtures used by witnesses and counterexamples -/

def loginBodyT : String := "\x7b\"data\":\x7b\"auth_token\":\"T\"\x7d\x7d"

def tr401 : Issued → Except Unit Response := fun _ => Except.ok ⟨401, ""⟩

def trNoContent : Issued → Except Unit Response := fun _ => Except.ok ⟨204, ""⟩

def trLoginOk : Issued → Except Unit Response := fun _ => Except.ok ⟨200, loginBodyT⟩

def trOkEmpty : Issued → Except Unit Response := fun _ => Except.ok ⟨200, ""⟩

def trNetErr : Issued → Except Unit Response := fun _ => Except.error ()

end CcfAuth

namespace CcfAuth

/-! ### Helper lemmas -/

theorem hKeyEq_refl (k : String) : hKeyEq k k = true := by
  simp [hKeyEq]

theorem getToken_clearToken (σ : Store) : getToken (clearToken σ) = "" := by
  by_cases h : σ.avail = true <;> simp [clearToken, getToken, h]

theorem strLength_pos (t : String) (h : t ≠ "") : 0 < t.length := by
  cases t with
  | mk data =>
    cases data with
    | nil => exact absurd rfl h
    | cons c cs => simp [String.length]

theorem isApi_eq_of_path (url p : String) (h : pathOf url = some p) :
    isApi url = strStartsWith p "/api/" := by
  simp [isApi, h]

theorem isApi_eq_false_of_none (url : String) (h : pathOf url = none) :
    isApi url = false := by
  simp [isApi, h]

theorem endsWith_login_not_logout (s : String)
    (h : strEndsWith s "/api/auth/login" = true) :
    strEndsWith s "/api/auth/logout" = false := by
  cases hco : strEndsWith s "/api/auth/logout"
  · rfl
  · exfalso
    unfold strEndsWith at h hco
    rw [Bool.and_eq_true] at h hco
    rcases h with ⟨hl1, he1⟩
    rcases hco with ⟨hl2, he2⟩
    have e1 : s.data.drop (s.data.length - "/api/auth/login".data.length)
        = "/api/auth/login".data := eq_of_beq he1
    have e2 : s.data.drop (s.data.length - "/api/auth/logout".data.length)
        = "/api/auth/logout".data := eq_of_beq he2
    have hn2 : "/api/auth/logout".data.length ≤ s.data.length := Nat.le_of_ble_eq_true hl2
    have hlen1 : "/api/auth/login".data.length = 15 := by decide
    have hlen2 : "/api/auth/logout".data.length = 16 := by decide
    have harith : s.data.length - 15 = (s.data.length - 16) + 1 := by omega
    have e3 : s.data.drop (s.data.length - 15)
        = List.drop 1 (s.data.drop (s.data.length - 16)) := by
      rw [List.drop_drop, harith]
    rw [hlen2] at e2
    rw [e2] at e3
    rw [hlen1] at e1
    rw [e1] at e3
    exact absurd e3 (by decide)

theorem endsWith_logout_not_login (s : String)
    (h : strEndsWith s "/api/auth/logout" = true) :
    strEndsWith s "/api/auth/login" = false := by
  cases hco : strEndsWith s "/api/auth/login"
  · rfl
  · exact absurd h (by simp [endsWith_login_not_logout s hco])

theorem hget_hset_self (h : HeaderMap) (k v : String) :
    hget (hset h k v) k = some v := by
  induction h with
  | nil => simp [hset, hget, hKeyEq_refl]
  | cons e t ih =>
    by_cases he : hKeyEq e.1 k = true
    · simp [hset, hget, he]
    · simp only [Bool.not_eq_true] at he
      simp [hset, hget, he, ih]

theorem hhas_cons (e : String × String) (t : HeaderMap) (k : String) :
    hhas (e :: t) k = (hKeyEq e.1 k || hhas t k) := by
  by_cases h : hKeyEq e.1 k = true <;> simp [hhas, hget, h]

theorem hhas_append (h1 h2 : HeaderMap) (k : String) :
    hhas (h1 ++ h2) k = (hhas h1 k || hhas h2 k) := by
  induction h1 with
  | nil => simp [hhas, hget]
  | cons e t ih => simp [hhas_cons, ih, Bool.or_assoc]

theorem not_keyEq_of_not_has (h : HeaderMap) (k : String) (hh : hhas h k = false) :
    ∀ e ∈ h, hKeyEq e.1 k = false := by
  induction h with
  | nil => intro e he; cases he
  | cons e0 t ih =>
    intro e he
    rw [hhas_cons] at hh
    rcases Bool.or_eq_false_iff.mp hh with ⟨h1, h2⟩
    cases he with
    | head => exact h1
    | tail _ hm => exact ih h2 e hm

theorem hset_of_not_has (h : HeaderMap) (k v : String) (hh : hhas h k = false) :
    hset h k v = h ++ [(k, v)] := by
  induction h with
  | nil => simp [hset]
  | cons e t ih =>
    rw [hhas_cons] at hh
    rcases Bool.or_eq_false_iff.mp hh with ⟨h1, h2⟩
    simp [hset, h1, ih h2]

/-- Header maps as built by the platform keep pairwise distinct names. -/
def KeysOk (h : HeaderMap) : Prop :=
  h.Pairwise (fun a b => hKeyEq a.1 b.1 = false)

theorem keys_hcombine_subset (h : HeaderMap) (k v : String) :
    ∀ b ∈ hcombine h k v, b.1 ∈ h.map Prod.fst ∨ b.1 = k := by
  induction h with
  | nil =>
    intro b hb
    simp only [hcombine, List.mem_singleton] at hb
    right
    rw [hb]
  | cons e t ih =>
    intro b hb
    by_cases he : hKeyEq e.1 k = true
    · simp only [hcombine, he, if_true] at hb
      cases hb with
      | head => left; simp
      | tail _ hm => left; simp only [List.map_cons, List.mem_cons]; right; exact List.mem_map_of_mem _ hm
    · simp only [Bool.not_eq_true] at he
      simp only [hcombine, he, Bool.false_eq_true, if_false] at hb
      cases hb with
      | head => left; simp
      | tail _ hm =>
        rcases ih b hm with hk1 | hk1
        · left; simp only [List.map_cons, List.mem_cons]; right; exact hk1
        · right; exact hk1

theorem keysOk_hcombine (h : HeaderMap) (k v : String) (hk : KeysOk h) :
    KeysOk (hcombine h k v) := by
  induction h with
  | nil =>
    simp [hcombine, KeysOk]
  | cons e t ih =>
    rcases List.pairwise_cons.mp hk with ⟨hhead, htail⟩
    by_cases he : hKeyEq e.1 k = true
    · simp only [hcombine, he, if_true]
      exact List.pairwise_cons.mpr ⟨fun b hb => hhead b hb, htail⟩
    · simp only [Bool.not_eq_true] at he
      simp only [hcombine, he, Bool.false_eq_true, if_false]
      refine List.pairwise_cons.mpr ⟨?_, ih htail⟩
      intro b hb
      rcases keys_hcombine_subset t k v b hb with hmem | hk1
      · rcases List.mem_map.mp hmem with ⟨a, ha, hab⟩
        rw [← hab]
        exact hhead a ha
      · rw [hk1]
        exact he

theorem keysOk_ofHeaderList (l : List (String × String)) : KeysOk (ofHeaderList l) := by
  have gen : ∀ (l2 : List (String × String)) (acc : HeaderMap), KeysOk acc →
      KeysOk (l2.foldl (fun h kv => hcombine h kv.1 kv.2) acc) := by
    intro l2
    induction l2 with
    | nil => intro acc h; exact h
    | cons kv tl ih => intro acc h; exact ih _ (keysOk_hcombine acc kv.1 kv.2 h)
  exact gen l [] List.Pairwise.nil

theorem foldl_hset_of_fresh : ∀ (l : List (String × String)) (h : HeaderMap),
    (∀ kv ∈ l, hhas h kv.1 = false) → KeysOk l →
    l.foldl (fun acc kv => hset acc kv.1 kv.2) h = h ++ l := by
  intro l
  induction l with
  | nil =>
    intro h _ _
    simp
  | cons kv tl ih =>
    intro h hfresh hkeys
    rcases List.pairwise_cons.mp hkeys with ⟨hhead, htail⟩
    have h1 : hhas h kv.1 = false := hfresh kv (List.mem_cons_self kv tl)
    have hstep : hset h kv.1 kv.2 = h ++ [kv] := by
      rw [hset_of_not_has h kv.1 kv.2 h1]
    have hfresh2 : ∀ e ∈ tl, hhas (h ++ [kv]) e.1 = false := by
      intro e he
      rw [hhas_append]
      have hk := hhead e he
      have h2 : hhas [kv] e.1 = false := by simp [hhas, hget, hk]
      simp [hfresh e (List.mem_cons_of_mem _ he), h2]
    show List.foldl _ (hset h kv.1 kv.2) tl = h ++ kv :: tl
    rw [hstep, ih (h ++ [kv]) hfresh2 htail]
    simp

theorem overlayInit_nil (l : List (String × String)) :
    overlayInit [] l = ofHeaderList l := by
  unfold overlayInit
  rw [foldl_hset_of_fresh (ofHeaderList l) [] (fun kv _ => rfl) (keysOk_ofHeaderList l)]
  simp

/-! ### Claim theorems -/

/-- C6: the classifier `isApi` returns true exactly when the URL resolves
against the page origin to a pathname beginning with the literal prefix
`/api/`, and a failing resolution yields false rather than raising. -/
theorem isApi_characterization :
    (∀ url p, pathOf url = some p → isApi url = strStartsWith p "/api/") ∧
    (∀ url, pathOf url = none → isApi url = false) :=
  ⟨fun url p h => isApi_eq_of_path url p h, fun url h => isApi_eq_false_of_none url h⟩

/-- Witness for C6: a resolving URL whose path is in scope, and a malformed
URL (empty authority) that classifies false. -/
theorem isApi_characterization_witness :
    isApi "https://h.example/api/v" = strStartsWith "/api/v" "/api/" ∧
    isApi "https://" = false :=
  ⟨isApi_characterization.1 "https://h.example/api/v" "/api/v" rfl,
   isApi_characterization.2 "https://" rfl⟩

/-- C5: a call whose resolved path does not begin with `/api/` passes through
untouched: the original fetch receives the original URL, headers and init
members and the store is untouched, the XHR open records a false verdict,
send then injects nothing, and the completion listener leaves the store
unchanged (no Extractor guard can fire). -/
theorem out_of_scope_passthrough (σ : Store) (tr : Issued → Except Unit Response)
    (input : FetchInput) (init : Option RequestInit)
    (h : ∀ p, pathOf (targetUrl input) = some p → strStartsWith p "/api/" = false) :
    fetchWrapperA σ tr input init
      = (tr ⟨targetUrl input, effHeaders input (initHeaders init), restOf init⟩, σ) ∧
    (xhrOpen (targetUrl input)).isApiFlag = false ∧
    (∀ x : XHR, x.isApiFlag = false → xhrSendInject σ x = x) ∧
    (∀ r : XHRResponse, xhrLoadListener σ false r = σ) := by
  have hfalse : isApi (targetUrl input) = false := by
    cases hp : pathOf (targetUrl input) with
    | none => exact isApi_eq_false_of_none _ hp
    | some p =>
      rw [isApi_eq_of_path _ p hp]
      exact h p hp
  refine ⟨?_, ?_, ?_, ?_⟩
  · simp [fetchWrapperA, issuedA, hfalse]
  · simp [xhrOpen, hfalse]
  · intro x hx
    simp [xhrSendInject, hx]
  · intro r
    simp [xhrLoadListener]

/-- Witness for C5 at a concrete out-of-scope call. -/
theorem out_of_scope_passthrough_witness :
    fetchWrapperA ⟨true, some "abc"⟩ trOkEmpty (FetchInput.str "/static/app.js") none
      = (trOkEmpty ⟨"/static/app.js", [], []⟩, ⟨true, some "abc"⟩) ∧
    (xhrOpen "/static/app.js").isApiFlag = false ∧
    xhrSendInject ⟨true, some "abc"⟩ ⟨false, []⟩ = ⟨false, []⟩ ∧
    xhrLoadListener ⟨true, some "abc"⟩ false ⟨200, "", none, ""⟩ = ⟨true, some "abc"⟩ := by
  have h := out_of_scope_passthrough ⟨true, some "abc"⟩ trOkEmpty
    (FetchInput.str "/static/app.js") none ?hp
  · exact ⟨h.1, h.2.1, h.2.2.1 ⟨false, []⟩ rfl, h.2.2.2 ⟨200, "", none, ""⟩⟩
  case hp =>
    intro p hp
    rw [show pathOf (targetUrl (FetchInput.str "/static/app.js"))
        = some "/static/app.js" from rfl] at hp
    injection hp with hh
    subst hh
    rfl

/-- C7: after a successful set of a non-empty token the store returns that
token, keeps returning it across any sequence of operations that contains no
clear and no successful set, and an empty or absent set argument leaves the
store unchanged. -/
theorem token_store_roundtrip (σ : Store) (t : String) (ops : List TokenOp)
    (hav : σ.avail = true) (ht : t ≠ "")
    (hops : ∀ op ∈ ops, neutralOp op = true) :
    getToken (setToken (some t) σ) = t ∧
    getToken (applyOps (setToken (some t) σ) ops) = t ∧
    (∀ u : Option String, truthyArg u = false → setToken u σ = σ) := by
  have hset1 : setToken (some t) σ = ⟨true, some t⟩ := by
    simp [setToken, ht, hav]
  have hneutral : ∀ (u : Option String), truthyArg u = false → ∀ σ2 : Store, setToken u σ2 = σ2 := by
    intro u hu σ2
    cases u with
    | none => rfl
    | some s =>
      simp only [truthyArg, bne_eq_false_iff_eq] at hu
      simp [setToken, hu]
  have happly : ∀ (l : List TokenOp) (σ2 : Store), (∀ op ∈ l, neutralOp op = true) →
      applyOps σ2 l = σ2 := by
    intro l
    induction l with
    | nil =>
      intro σ2 _
      rfl
    | cons op tl ih =>
      intro σ2 hl
      have hop := hl op (List.mem_cons_self op tl)
      have hstep : applyOp σ2 op = σ2 := by
        cases op with
        | clear => simp [neutralOp] at hop
        | set u =>
          simp only [neutralOp, Bool.not_eq_true'] at hop
          exact hneutral u hop σ2
      show applyOps (applyOp σ2 op) tl = σ2
      rw [hstep]
      exact ih σ2 (fun o ho => hl o (List.mem_cons_of_mem _ ho))
  refine ⟨?_, ?_, fun u hu => hneutral u hu σ⟩
  · rw [hset1]
    rfl
  · rw [happly ops _ hops, hset1]
    rfl

/-- Witness for C7: set "abc", then two unsuccessful sets; the token
survives, and an empty set is a no-op. -/
theorem token_store_roundtrip_witness :
    getToken (setToken (some "abc") ⟨true, none⟩) = "abc" ∧
    getToken (applyOps (setToken (some "abc") ⟨true, none⟩)
      [TokenOp.set none, TokenOp.set (some "")]) = "abc" ∧
    setToken (some "") ⟨true, none⟩ = ⟨true, none⟩ := by
  have h := token_store_roundtrip ⟨true, none⟩ "abc"
    [TokenOp.set none, TokenOp.set (some "")] rfl (by decide) (by decide)
  exact ⟨h.1, h.2.1, h.2.2 (some "") (by decide)⟩

/-- C9 (implicit): the classifier consults only the resolved pathname, never
the URL host or the page origin; any URL resolving to a pathname that
begins with `/api/` is in scope, and, absent a caller-supplied Authorization
entry, the stored bearer token is attached to the issued request. -/
theorem classifier_ignores_origin (url p t : String) (σ : Store) (init : Option RequestInit)
    (hp : pathOf url = some p) (hs : strStartsWith p "/api/" = true)
    (hca : hhas (preMergedA (FetchInput.str url) init) "Authorization" = false)
    (ht : getToken σ = t) (hne : t ≠ "") :
    isApi url = true ∧
    hget (issuedA σ (FetchInput.str url) init).headers "Authorization" = some (bearer t) := by
  have hapi : isApi url = true := by
    rw [isApi_eq_of_path url p hp]
    exact hs
  refine ⟨hapi, ?_⟩
  have hiss : issuedA σ (FetchInput.str url) init
      = ⟨url, mergedHeadersA σ (FetchInput.str url) init, restOf init⟩ := by
    simp [issuedA, targetUrl, hapi]
  rw [hiss]
  show hget (mergedHeadersA σ (FetchInput.str url) init) "Authorization" = some (bearer t)
  simp [mergedHeadersA, hca, ht, hne, hget_hset_self]

/-- Witness for C9: a cross-origin absolute URL whose path is under /api/
gets the stored token attached. -/
theorem classifier_ignores_origin_witness :
    isApi "https://evil.example/api/x" = true ∧
    hget (issuedA ⟨true, some "tok"⟩ (FetchInput.str "https://evil.example/api/x") none).headers
      "Authorization" = some (bearer "tok") :=
  classifier_ignores_origin "https://evil.example/api/x" "/api/x" "tok" ⟨true, some "tok"⟩ none
    rfl rfl rfl rfl (by decide)

/-- Counterexample to C1 as stated: on the fetch transport a completed 401
does not clear the store (the fetch wrapper has no clear call), and the
immediately following in-scope fetch still carries the old bearer header. -/
theorem fetch_401_leaves_token :
    (fetchWrapperA ⟨true, some "abc"⟩ tr401 (FetchInput.str "/api/widgets") none).2
      = ⟨true, some "abc"⟩ ∧
    hget (issuedA ⟨true, some "abc"⟩ (FetchInput.str "/api/next") none).headers "Authorization"
      = some "Bearer abc" := by
  constructor
  · rfl
  · rfl

/-- C1 amended: only on the XHR transport does a completed in-scope call
with status 401 clear the Token Store (provided the parse of `responseURL`
in the load listener succeeds); the store afterwards yields no token, so a
following XHR send injects no Authorization header. -/
theorem xhr_401_clears_token (σ : Store) (r : XHRResponse) (p : String) (x : XHR)
    (hurl : pathOfAbs r.responseURL = some p) (h401 : r.status = 401)
    (hx : x.isApiFlag = true) :
    getToken (xhrLoadListener σ true r) = "" ∧
    xhrSendInject (xhrLoadListener σ true r) x = x := by
  have hb : (Nat.ble 200 r.status && Nat.blt r.status 300) = false := by
    rw [h401]
    rfl
  have hlis : xhrLoadListener σ true r = clearToken σ := by
    simp [xhrLoadListener, hurl, hb, h401]
  rw [hlis]
  refine ⟨getToken_clearToken σ, ?_⟩
  rw [xhrSendInject, hx]
  simp [getToken_clearToken σ]

/-- Witness for C1 amended: a concrete 401 on an in-scope XHR call. -/
theorem xhr_401_clears_token_witness :
    getToken (xhrLoadListener ⟨true, some "abc"⟩ true ⟨401, "https://a.b/api/w", none, ""⟩) = "" ∧
    xhrSendInject (xhrLoadListener ⟨true, some "abc"⟩ true ⟨401, "https://a.b/api/w", none, ""⟩)
      ⟨true, []⟩ = ⟨true, []⟩ :=
  xhr_401_clears_token ⟨true, some "abc"⟩ ⟨401, "https://a.b/api/w", none, ""⟩ "/api/w"
    ⟨true, []⟩ rfl rfl rfl

/-- Counterexample to C2 as stated: on the fetch transport a successful
logout response does not clear the store; the stored credential survives. -/
theorem fetch_logout_leaves_token :
    (fetchWrapperA ⟨true, some "abc"⟩ trNoContent (FetchInput.str "/api/auth/logout") none).2
      = ⟨true, some "abc"⟩ ∧
    getToken
      (fetchWrapperA ⟨true, some "abc"⟩ trNoContent (FetchInput.str "/api/auth/logout") none).2
      = "abc" := by
  constructor
  · rfl
  · rfl

/-- C2 amended: only on the XHR transport does a completed in-scope call
whose final path ends with `/api/auth/logout` and whose status lies in
[200,300) clear the Token Store, with exactly the effect of a clear (the
same store a 401 would leave). -/
theorem xhr_logout_clears_token (σ : Store) (r : XHRResponse) (p : String)
    (hurl : pathOfAbs r.responseURL = some p)
    (hp : strEndsWith p "/api/auth/logout" = true)
    (h1 : 200 ≤ r.status) (h2 : r.status < 300) :
    xhrLoadListener σ true r = clearToken σ ∧
    getToken (xhrLoadListener σ true r) = "" := by
  have hnl : strEndsWith p "/api/auth/login" = false := endsWith_logout_not_login p hp
  have hble : Nat.ble 200 r.status = true := Nat.ble_eq.mpr h1
  have hblt : Nat.blt r.status 300 = true := Nat.blt_eq.mpr h2
  have hne401 : ¬ r.status = 401 := by omega
  have hlis : xhrLoadListener σ true r = clearToken σ := by
    simp [xhrLoadListener, hurl, hnl, hp, hble, hblt, hne401]
  exact ⟨hlis, by rw [hlis]; exact getToken_clearToken σ⟩

/-- Witness for C2 amended: a concrete 204 logout on the XHR transport. -/
theorem xhr_logout_clears_token_witness :
    xhrLoadListener ⟨true, some "abc"⟩ true ⟨204, "https://a.b/api/auth/logout", none, ""⟩
      = clearToken ⟨true, some "abc"⟩ ∧
    getToken
      (xhrLoadListener ⟨true, some "abc"⟩ true ⟨204, "https://a.b/api/auth/logout", none, ""⟩)
      = "" :=
  xhr_logout_clears_token ⟨true, some "abc"⟩ ⟨204, "https://a.b/api/auth/logout", none, ""⟩
    "/api/auth/logout" rfl rfl (by decide) (by decide)


/-- Counterexample to C3 as stated: on the XHR transport injection is
unconditional, and the platform `setRequestHeader` combines with a
caller-supplied Authorization header, altering its value. -/
theorem xhr_inject_alters_caller_authorization :
    hget (xhrSendInject ⟨true, some "tok"⟩
        (setRequestHeader (xhrOpen "/api/data") "Authorization" "Basic x")).reqHeaders
      "Authorization" = some "Basic x, Bearer tok" ∧
    ¬ hget (xhrSendInject ⟨true, some "tok"⟩
        (setRequestHeader (xhrOpen "/api/data") "Authorization" "Basic x")).reqHeaders
      "Authorization" = some "Basic x" := by
  constructor
  · rfl
  · decide

/-- C3 amended: on the fetch transport a caller-supplied Authorization entry
(whether from Request-object defaults or from explicit call options) is
never overwritten or altered: when an Authorization entry is present after
the merge, the injection step changes nothing, so the token is injected only
when no entry is present.  (On the XHR transport the interceptor instead
appends its bearer value unconditionally whenever a token is stored.) -/
theorem fetch_never_overwrites_authorization (σ : Store) (input : FetchInput)
    (init : Option RequestInit)
    (h : hhas (preMergedA input init) "Authorization" = true) :
    mergedHeadersA σ input init = preMergedA input init ∧
    hget (mergedHeadersA σ input init) "Authorization"
      = hget (preMergedA input init) "Authorization" := by
  have he : mergedHeadersA σ input init = preMergedA input init := by
    simp [mergedHeadersA, h]
  exact ⟨he, by rw [he]⟩

/-- Witness for C3 amended: a Request-object default Authorization header
survives injection untouched while a token is stored. -/
theorem fetch_never_overwrites_authorization_witness :
    hhas (preMergedA (FetchInput.req ⟨"/api/z", [("Authorization", "Basic q")]⟩) none)
      "Authorization" = true ∧
    mergedHeadersA ⟨true, some "tok"⟩
        (FetchInput.req ⟨"/api/z", [("Authorization", "Basic q")]⟩) none
      = preMergedA (FetchInput.req ⟨"/api/z", [("Authorization", "Basic q")]⟩) none :=
  ⟨rfl,
   (fetch_never_overwrites_authorization ⟨true, some "tok"⟩
     (FetchInput.req ⟨"/api/z", [("Authorization", "Basic q")]⟩) none rfl).1⟩

/-- Counterexample to C4 as stated: a completed call whose final path ends
with the segment `/api/auth/login` but does not begin with `/api/` is out of
scope; the wrapper passes it through and no token is set even though the
success body carries a non-empty `data.auth_token`. -/
theorem login_capture_skipped_out_of_scope :
    strEndsWith "/v2/api/auth/login" "/api/auth/login" = true ∧
    authTokenField ((resJson ⟨200, loginBodyT⟩).getD JVal.null) = some (JVal.str "T") ∧
    (fetchWrapperA ⟨true, none⟩ trLoginOk (FetchInput.str "/v2/api/auth/login") none).2
      = ⟨true, none⟩ :=
  ⟨rfl, rfl, rfl⟩

/-- C4 amended: for every completed in-scope call, on either transport,
whose final path ends with `/api/auth/login` and whose status is in
[200,300), the store update is exactly: set the token when the parsed body
holds a non-empty string at `data.auth_token`; otherwise (parse failure,
absent field, empty string, non-string value) leave the store unchanged. -/
theorem login_capture_in_scope (σ : Store) (tr : Issued → Except Unit Response)
    (input : FetchInput) (init : Option RequestInit) (p : String) (r : Response)
    (hpath : pathOf (targetUrl input) = some p)
    (hapi : strStartsWith p "/api/" = true)
    (hlogin : strEndsWith p "/api/auth/login" = true)
    (htr : tr (issuedA σ input init) = Except.ok r)
    (h1 : 200 ≤ r.status) (h2 : r.status < 300) :
    (fetchWrapperA σ tr input init).2
      = (match authTokenField ((resJson r).getD JVal.null) with
         | some (JVal.str s) => if 0 < s.length then setToken (some s) σ else σ
         | _ => σ) ∧
    (∀ (r2 : XHRResponse) (p2 : String),
      pathOfAbs r2.responseURL = some p2 →
      strEndsWith p2 "/api/auth/login" = true →
      200 ≤ r2.status → r2.status < 300 →
      xhrLoadListener σ true r2
        = (match authTokenField (xhrBodyJson r2) with
           | some (JVal.str s) => if 0 < s.length then setToken (some s) σ else σ
           | _ => σ)) := by
  have hapi2 : isApi (targetUrl input) = true := by
    rw [isApi_eq_of_path _ p hpath]
    exact hapi
  have hok : rOk r = true := by
    rw [rOk, Nat.ble_eq.mpr h1, Nat.blt_eq.mpr h2]
    rfl
  constructor
  · have hw : fetchWrapperA σ tr input init = (Except.ok r, captureA σ (targetUrl input) r) := by
      simp [fetchWrapperA, hapi2, htr]
    rw [hw]
    show captureA σ (targetUrl input) r = _
    simp [captureA, hpath, hlogin, hok]
  · intro r2 p2 hurl2 hlogin2 h21 h22
    have hnl : strEndsWith p2 "/api/auth/logout" = false := endsWith_login_not_logout p2 hlogin2
    have hble : Nat.ble 200 r2.status = true := Nat.ble_eq.mpr h21
    have hblt : Nat.blt r2.status 300 = true := Nat.blt_eq.mpr h22
    have hne401 : ¬ r2.status = 401 := by omega
    simp [xhrLoadListener, hurl2, hlogin2, hnl, hble, hblt, hne401]

/-- Witness for C4 amended: a concrete successful login on each transport
stores the token "T" carried at `data.auth_token`. -/
theorem login_capture_in_scope_witness :
    (fetchWrapperA ⟨true, none⟩ trLoginOk (FetchInput.str "/api/auth/login") none).2
      = setToken (some "T") ⟨true, none⟩ ∧
    xhrLoadListener ⟨true, none⟩ true ⟨200, "https://a.b/api/auth/login", none, loginBodyT⟩
      = setToken (some "T") ⟨true, none⟩ := by
  have h := login_capture_in_scope ⟨true, none⟩ trLoginOk (FetchInput.str "/api/auth/login") none
    "/api/auth/login" ⟨200, loginBodyT⟩ rfl rfl rfl rfl (by decide) (by decide)
  constructor
  · exact h.1.trans rfl
  · exact (h.2 ⟨200, "https://a.b/api/auth/login", none, loginBodyT⟩ "/api/auth/login"
      rfl rfl (by decide) (by decide)).trans rfl

/-- C8: the interceptor never changes the outcome of a call: the fetch wrapper
returns exactly the result of the delegated transport (response or rejection),
a rejected transport call leaves the store untouched (inspection never
runs), and the wrapped XHR send delegates to the original send with the
body unchanged, all internal failures being swallowed into the store-only
side effects. -/
theorem interceptor_preserves_outcome (σ : Store) (tr : Issued → Except Unit Response)
    (input : FetchInput) (init : Option RequestInit) :
    (fetchWrapperA σ tr input init).1 = tr (issuedA σ input init) ∧
    (∀ e : Unit, tr (issuedA σ input init) = Except.error e →
      (fetchWrapperA σ tr input init).2 = σ) ∧
    (∀ (x : XHR) (b : Option String), xhrSend σ x b = (xhrSendInject σ x, b)) := by
  refine ⟨?_, ?_, fun x b => rfl⟩
  · by_cases hapi : isApi (targetUrl input) = true
    · cases htr : tr (issuedA σ input init) with
      | error e => simp [fetchWrapperA, hapi, htr]
      | ok res => simp [fetchWrapperA, hapi, htr]
    · simp only [Bool.not_eq_true] at hapi
      simp [fetchWrapperA, hapi]
  · intro e htr
    by_cases hapi : isApi (targetUrl input) = true
    · simp [fetchWrapperA, hapi, htr]
    · simp only [Bool.not_eq_true] at hapi
      simp [fetchWrapperA, hapi]

/-- Witness for C8: a rejecting transport propagates its rejection unchanged
and the store is untouched; the XHR send hands over the body as given. -/
theorem interceptor_preserves_outcome_witness :
    (fetchWrapperA ⟨true, some "w"⟩ trNetErr (FetchInput.str "/api/e") none).1
      = trNetErr (issuedA ⟨true, some "w"⟩ (FetchInput.str "/api/e") none) ∧
    (fetchWrapperA ⟨true, some "w"⟩ trNetErr (FetchInput.str "/api/e") none).2
      = ⟨true, some "w"⟩ ∧
    xhrSend ⟨true, some "w"⟩ ⟨true, []⟩ none
      = (xhrSendInject ⟨true, some "w"⟩ ⟨true, []⟩, none) := by
  have h := interceptor_preserves_outcome ⟨true, some "w"⟩ trNetErr (FetchInput.str "/api/e") none
  exact ⟨h.1, h.2.1 () rfl, h.2.2 ⟨true, []⟩ none⟩

/-- Counterexample to C10 as stated: on a `URL`-object target the two fetch
wrappers issue different requests — auth-header.ts attaches the stored
bearer token, while part_000 reads the nonexistent `url` property of the
`URL` object, classifies the call out of scope, and attaches nothing. -/
theorem fetch_wrappers_not_equivalent :
    hget (issuedA ⟨true, some "tok"⟩ (FetchInput.url "https://h.example/api/x") none).headers
      "Authorization" = some "Bearer tok" ∧
    hget (issuedB ⟨true, some "tok"⟩ (FetchInput.url "https://h.example/api/x") none).headers
      "Authorization" = none ∧
    issuedA ⟨true, some "tok"⟩ (FetchInput.url "https://h.example/api/x") none
      ≠ issuedB ⟨true, some "tok"⟩ (FetchInput.url "https://h.example/api/x") none := by
  refine ⟨rfl, rfl, ?_⟩
  decide

theorem preMergedA_str (s : String) (init : Option RequestInit) :
    preMergedA (FetchInput.str s) init = ofHeaderList ((initHeaders init).getD []) := by
  cases hih : initHeaders init with
  | none => simp [preMergedA, hih, ofHeaderList]
  | some l => simp [preMergedA, hih, overlayInit_nil]

theorem mergedHeadersA_str (σ : Store) (s : String) (init : Option RequestInit) :
    mergedHeadersA σ (FetchInput.str s) init
      = (let h0 := ofHeaderList ((initHeaders init).getD [])
         if hhas h0 "Authorization" = false then
           let t := getToken σ
           if t ≠ "" then hset h0 "Authorization" (bearer t) else h0
         else h0) := by
  rw [mergedHeadersA, preMergedA_str]

theorem captureB_eq_captureA (σ : Store) (url : String) (r : Response)
    (h : isApi url = true) : captureB σ url r = captureA σ url r := by
  simp [captureB, captureA, h]

/-- C10 amended: the two fetch wrappers are observably equivalent for
string-typed targets — for every store, transport and init they issue the
same request and perform the same store update; they diverge on `URL`-object
targets (part_000 never classifies those in scope) and on `Request` targets
(part_000 drops the own headers of the Request from the merge). -/
theorem fetch_wrappers_agree_on_string_targets (σ : Store)
    (tr : Issued → Except Unit Response) (s : String) (init : Option RequestInit) :
    fetchWrapperA σ tr (FetchInput.str s) init = fetchWrapperB σ tr (FetchInput.str s) init := by
  have hiss : issuedA σ (FetchInput.str s) init = issuedB σ (FetchInput.str s) init := by
    by_cases hapi : isApi s = true
    · have hh : mergedHeadersA σ (FetchInput.str s) init
          = issuedBHeaders σ (FetchInput.str s) init := by
        rw [mergedHeadersA_str]
        simp [issuedBHeaders, targetUrlB, hapi]
      simp [issuedA, issuedB, targetUrl, hapi, hh]
    · simp only [Bool.not_eq_true] at hapi
      simp [issuedA, issuedB, issuedBHeaders, targetUrl, targetUrlB, hapi]
  by_cases hapi : isApi s = true
  · cases htr : tr (issuedA σ (FetchInput.str s) init) with
    | error e =>
      have htr2 : tr (issuedB σ (FetchInput.str s) init) = Except.error e := by
        rw [← hiss]
        exact htr
      simp [fetchWrapperA, fetchWrapperB, targetUrl, hapi, htr, htr2]
    | ok res =>
      have htr2 : tr (issuedB σ (FetchInput.str s) init) = Except.ok res := by
        rw [← hiss]
        exact htr
      have hcap : captureB σ s res = captureA σ s res := captureB_eq_captureA σ s res hapi
      simp [fetchWrapperA, fetchWrapperB, targetUrl, targetUrlB, hapi, htr, htr2, hcap]
  · simp only [Bool.not_eq_true] at hapi
    cases htr : tr (issuedA σ (FetchInput.str s) init) with
    | error e =>
      have htr2 : tr (issuedB σ (FetchInput.str s) init) = Except.error e := by
        rw [← hiss]
        exact htr
      simp [fetchWrapperA, fetchWrapperB, targetUrl, hapi, htr, htr2]
    | ok res =>
      have htr2 : tr (issuedB σ (FetchInput.str s) init) = Except.ok res := by
        rw [← hiss]
        exact htr
      simp [fetchWrapperA, fetchWrapperB, captureB, targetUrl, targetUrlB, hapi, htr, htr2]

end CcfAuth
